import Mathlib

/-!
Verification of the buffered multi-sink logger (`src/modules/classes/Logger.ts`)
and the caller-resolution helper (`src/modules/helpers/SourceClass.ts`).

The embedding mirrors the TypeScript source. Stateful code becomes explicit
state passing on `LoggerState`; every sink is modelled as the trace (list) of
the write payloads issued to it, one list entry per `write` call. The code is
single-threaded cooperative: the triggered `flush()` body runs synchronously up
to its trailing yield, so sequential composition is the faithful semantics.
Timestamps are environment inputs (`Date` / `process.hrtime`), so each log
operation takes the timestamp string as an explicit argument. Messages logged
through the claims below are strings, for which `formatValue` is the identity
(`String(value)`), so the logger model carries the message text directly.
-/

/-- Error outcomes of `log`: the explicit `throw new Error("Logger is closed...")`
when the instance is closed, and the implicit TypeError raised by
`this.fileStreams[level].write(...)` when `level` is not one of the four
severities that `initializeStreams` creates streams for. -/
inductive LogError where
  | closedInstance
  | badLevel
deriving DecidableEq

/-- State of one Logger instance. Sinks are write traces: `stdoutW` records the
payloads passed to `process.stdout.write`, `streamW` those passed to
`this.writeStream.write`, and the four `file*` fields those passed to the
per-severity file streams. `streamIsStdout` records whether the configured
`writeStream` is physically `process.stdout` (the default). -/
structure LoggerState where
  source : String
  bufferSize : Nat
  inmediate : Bool
  streamIsStdout : Bool
  buffer : List (Option String)
  index : Nat
  isFlushing : Bool
  isClosed : Bool
  stdoutW : List String
  streamW : List String
  fileInfo : List String
  fileWarn : List String
  fileError : List String
  fileDebug : List String
  streamEnded : Bool
  filesEnded : Bool
deriving DecidableEq

/-- The ANSI reset escape, `Logger.colors.reset`. -/
def resetCode : String := "\x1b[0m"

/-- Lookup in the `Logger.colors` record with the `|| Logger.colors.reset`
fallback from `formatMessage`. -/
def colorOf (level : String) : String :=
  if level = "error" then "\x1b[31m"
  else if level = "info" then "\x1b[32m"
  else if level = "warn" then "\x1b[33m"
  else if level = "debug" then "\x1b[34m"
  else if level = "reset" then resetCode
  else if level = "mapKey" then "\x1b[36m"
  else if level = "mapValue" then "\x1b[35m"
  else if level = "setValue" then "\x1b[33m"
  else if level = "objectKey" then "\x1b[90m"
  else if level = "objectValue" then "\x1b[92m"
  else resetCode

/-- JavaScript String.prototype.toUpperCase restricted to the ASCII level
names the logger uses (kernel-reducible, unlike String.toUpper). -/
def upperStr (s : String) : String := String.mk (s.data.map Char.toUpper)

/-- Logger.formatMessage. The console variant is
the template `[ts] color[LEVEL] source reset: msg` (a single reset, attached
after the source); the file variant carries no escapes. -/
def formatMessage (source : String) (isConsole : Bool) (level ts msg : String) : String :=
  if isConsole then
    "[" ++ ts ++ "] " ++ colorOf level ++ "[" ++ upperStr level ++ "] " ++ source
      ++ resetCode ++ ": " ++ msg
  else
    "[" ++ ts ++ "] [" ++ upperStr level ++ "] " ++ source ++ ": " ++ msg

/-- Writing to `this.fileStreams[level]`: the map built by `initializeStreams`
has exactly the keys info, debug, error, warn; any other key yields
`undefined` and the `.write` call raises (modelled by `none`). -/
def fileWrite (st : LoggerState) (level line : String) : Option LoggerState :=
  if level = "info" then some { st with fileInfo := st.fileInfo ++ [line] }
  else if level = "debug" then some { st with fileDebug := st.fileDebug ++ [line] }
  else if level = "error" then some { st with fileError := st.fileError ++ [line] }
  else if level = "warn" then some { st with fileWarn := st.fileWarn ++ [line] }
  else none

/-- The collection pass of `flush`: `if (this.buffer[i])` is a JavaScript
truthiness test, so a slot is collected exactly when it is non-null and not
the empty string. -/
def truthyCollect (buf : List (Option String)) : List String :=
  buf.filterMap (fun o =>
    match o with
    | some s => if s = "" then none else some s
    | none => none)

/-- The clearing pass of `flush`: `this.buffer[i] = null` runs only inside the
truthiness branch, so exactly the collected slots are cleared. -/
def truthyClear (buf : List (Option String)) : List (Option String) :=
  buf.map (fun o =>
    match o with
    | some s => if s = "" then some s else none
    | none => none)

/-- Logger.flush. Returns the state unchanged when already flushing or closed;
otherwise collects the truthy slots front-to-back, clears them, issues one
write of the newline-joined batch to `writeStream` when the batch is
non-empty, and resets the index. -/
def flushOp (st : LoggerState) : LoggerState :=
  if st.isFlushing ∨ st.isClosed then st
  else
    let batch := truthyCollect st.buffer
    let st1 := { st with buffer := truthyClear st.buffer }
    let st2 :=
      if batch = [] then st1
      else { st1 with streamW := st1.streamW ++ [String.intercalate "\n" batch ++ "\n"] }
    { st2 with index := 0, isFlushing := false }

/-- Logger.log. Throws when closed (before any mutation); otherwise formats
both variants, delivers the console variant either immediately to
`process.stdout` (when `inmediate` or the level is warn/error) or into the
circular buffer with a flush triggered on wrap-around, and finally writes the
file variant; an unknown level makes that last step raise, with the earlier
mutations already applied (the carried state). Returns `true` on success. -/
def logOp (st : LoggerState) (level msg ts : String) :
    Except (LogError × LoggerState) (LoggerState × Bool) :=
  if st.isClosed then .error (.closedInstance, st)
  else
    let fm := formatMessage st.source true level ts msg
    let fmf := formatMessage st.source false level ts msg
    let st1 :=
      if st.inmediate = true ∨ level = "warn" ∨ level = "error" then
        { st with stdoutW := st.stdoutW ++ [fm ++ "\n"] }
      else
        let stb := { st with buffer := st.buffer.set st.index (some fm),
                             index := (st.index + 1) % st.bufferSize }
        if stb.index = 0 then flushOp stb else stb
    match fileWrite st1 level (fmf ++ "\n") with
    | some st2 => .ok (st2, true)
    | none => .error (.badLevel, st1)

/-- Logger.info. -/
def infoOp (st : LoggerState) (msg ts : String) :
    Except (LogError × LoggerState) (LoggerState × Bool) :=
  logOp st "info" msg ts

/-- Logger.warn. -/
def warnOp (st : LoggerState) (msg ts : String) :
    Except (LogError × LoggerState) (LoggerState × Bool) :=
  logOp st "warn" msg ts

/-- Logger.error. -/
def errorOp (st : LoggerState) (msg ts : String) :
    Except (LogError × LoggerState) (LoggerState × Bool) :=
  logOp st "error" msg ts

/-- Logger.debug: delegates to log only when NODE_ENV is development,
otherwise returns false without touching the instance. -/
def debugOp (isDev : Bool) (st : LoggerState) (msg ts : String) :
    Except (LogError × LoggerState) (LoggerState × Bool) :=
  if isDev then logOp st "debug" msg ts else .ok (st, false)

/-- Logger.close. Idempotent; sets `isClosed` first, then calls `flush` when
the index is positive or a flush is in progress, then ends `writeStream` when
it is not `process.stdout`, then ends every file stream. -/
def closeOp (st : LoggerState) : LoggerState :=
  if st.isClosed then st
  else
    let st1 := { st with isClosed := true }
    let st2 := if st1.index > 0 ∨ st1.isFlushing then flushOp st1 else st1
    let st3 := if st2.streamIsStdout then st2 else { st2 with streamEnded := true }
    { st3 with filesEnded := true }

/-- The Logger constructor: applies the `??` defaults (bufferSize 1024,
inmediate true) and pre-allocates the buffer with null slots. `source` is the
label resolved once by `getCallerClass`. -/
def mkLogger (bufferSize : Option Nat) (inmediate : Option Bool)
    (streamIsStdout : Bool) (source : String) : LoggerState :=
  { source := source
    bufferSize := bufferSize.getD 1024
    inmediate := inmediate.getD true
    streamIsStdout := streamIsStdout
    buffer := List.replicate (bufferSize.getD 1024) none
    index := 0
    isFlushing := false
    isClosed := false
    stdoutW := []
    streamW := []
    fileInfo := []
    fileWarn := []
    fileError := []
    fileDebug := []
    streamEnded := false
    filesEnded := false }

/-- The instance state after an operation, whether it returned normally or
threw: a throw leaves the mutations performed before the throwing statement. -/
def resultState : Except (LogError × LoggerState) (LoggerState × Bool) → LoggerState
  | .ok (s, _) => s
  | .error (_, s) => s

/-- The console-formatted line an info call with the given (timestamp,
message) pair produces. -/
def consoleLine (src : String) (p : String × String) : String :=
  formatMessage src true "info" p.1 p.2

/-- The payload the same call writes to the info file stream. -/
def fileLine (src : String) (p : String × String) : String :=
  formatMessage src false "info" p.1 p.2 ++ "\n"

/-- Running a sequence of info calls, each with its own timestamp, stopping at
the first throw. -/
def runInfos (st : LoggerState) : List (String × String) →
    Except (LogError × LoggerState) LoggerState
  | [] => .ok st
  | (ts, m) :: rest =>
    match logOp st "info" m ts with
    | .ok (st2, _) => runInfos st2 rest
    | .error e => .error e

/-- A logger built with `inmediate: false` and the default `writeStream`, the
configuration the buffering claims quantify over. -/
def freshBuffered (B : Nat) (src : String) : LoggerState :=
  mkLogger (some B) (some false) true src

/-- State of a buffered logger after the info calls in `pairs` while the
buffer has not yet wrapped: the formatted lines occupy the first slots, the
index sits after them, and the file sink already received every file variant. -/
def midState (B : Nat) (src : String) (pairs : List (String × String)) : LoggerState :=
  { source := src
    bufferSize := B
    inmediate := false
    streamIsStdout := true
    buffer := (pairs.map (consoleLine src)).map some ++
      List.replicate (B - pairs.length) none
    index := pairs.length
    isFlushing := false
    isClosed := false
    stdoutW := []
    streamW := []
    fileInfo := pairs.map (fileLine src)
    fileWarn := []
    fileError := []
    fileDebug := []
    streamEnded := false
    filesEnded := false }

/-- State of a buffered logger right after a flush has drained the info calls
in `pairs`: empty buffer, zero index, one batched write on the configured
stream. -/
def flushedState (B : Nat) (src : String) (pairs : List (String × String)) : LoggerState :=
  { source := src
    bufferSize := B
    inmediate := false
    streamIsStdout := true
    buffer := List.replicate B none
    index := 0
    isFlushing := false
    isClosed := false
    stdoutW := []
    streamW := [String.intercalate "\n" (pairs.map (consoleLine src)) ++ "\n"]
    fileInfo := pairs.map (fileLine src)
    fileWarn := []
    fileError := []
    fileDebug := []
    streamEnded := false
    filesEnded := false }

theorem freshBuffered_eq_midState (B : Nat) (src : String) :
    freshBuffered B src = midState B src [] := rfl

theorem list_set_append {α : Type} (xs ys : List α) (v : α) :
    (xs ++ ys).set xs.length v = xs ++ ys.set 0 v := by
  induction xs with
  | nil => rfl
  | cons x xs ih => simp [List.set, ih]

theorem formatMessage_length_pos (source : String) (isConsole : Bool)
    (level ts msg : String) : 0 < (formatMessage source isConsole level ts msg).length := by
  unfold formatMessage
  have h1 : "[".length = 1 := rfl
  split <;> (simp only [String.length_append]; omega)

theorem consoleLine_ne_empty (src : String) (p : String × String) :
    ¬ consoleLine src p = "" := by
  intro h
  have := formatMessage_length_pos src true "info" p.1 p.2
  rw [show formatMessage src true "info" p.1 p.2 = consoleLine src p from rfl, h] at this
  simp at this

theorem truthyCollect_map_some (lines : List String)
    (h : ∀ s ∈ lines, ¬ s = "") :
    truthyCollect (lines.map some) = lines := by
  induction lines with
  | nil => rfl
  | cons x xs ih =>
    have hx : ¬ x = "" := h x (by simp)
    simp only [truthyCollect, List.map_cons, List.filterMap_cons]
    rw [if_neg hx]
    have := ih (fun s hs => h s (by simp [hs]))
    simp only [truthyCollect] at this
    simp [this]

theorem truthyCollect_replicate_none (m : Nat) :
    truthyCollect (List.replicate m none) = [] := by
  induction m with
  | zero => rfl
  | succ k ih =>
    simp only [truthyCollect, List.replicate_succ, List.filterMap_cons]
    simp only [truthyCollect] at ih
    simp [ih]

theorem truthyCollect_append (a b : List (Option String)) :
    truthyCollect (a ++ b) = truthyCollect a ++ truthyCollect b := by
  simp [truthyCollect]

theorem truthyClear_map_some (lines : List String)
    (h : ∀ s ∈ lines, ¬ s = "") :
    truthyClear (lines.map some) = List.replicate lines.length none := by
  induction lines with
  | nil => rfl
  | cons x xs ih =>
    have hx : ¬ x = "" := h x (by simp)
    have ihx := ih (fun s hs => h s (by simp [hs]))
    simp only [truthyClear, List.map_cons] at ihx ⊢
    rw [if_neg hx, ihx]
    simp [List.replicate_succ]

theorem truthyClear_replicate_none (m : Nat) :
    truthyClear (List.replicate m none) = List.replicate m none := by
  induction m with
  | zero => rfl
  | succ k ih =>
    simp only [truthyClear, List.replicate_succ, List.map_cons]
    simp only [truthyClear] at ih
    simp [ih]

theorem truthyClear_append (a b : List (Option String)) :
    truthyClear (a ++ b) = truthyClear a ++ truthyClear b := by
  simp [truthyClear]

theorem consoleLines_ne_empty (src : String) (pairs : List (String × String)) :
    ∀ s ∈ pairs.map (consoleLine src), ¬ s = "" := by
  intro s hs
  obtain ⟨p, _, rfl⟩ := List.mem_map.mp hs
  exact consoleLine_ne_empty src p

theorem midState_set_step (B : Nat) (src ts m : String)
    (pairs : List (String × String)) (h : pairs.length + 1 ≤ B) :
    ((pairs.map (consoleLine src)).map some ++
        List.replicate (B - pairs.length) (none : Option String)).set pairs.length
          (some (formatMessage src true "info" ts m)) =
      ((pairs ++ [(ts, m)]).map (consoleLine src)).map some ++
        List.replicate (B - (pairs.length + 1)) none := by
  have hsub : B - pairs.length = (B - (pairs.length + 1)) + 1 := by omega
  have h2 := list_set_append ((pairs.map (consoleLine src)).map some)
    (List.replicate (B - pairs.length) (none : Option String))
    (some (formatMessage src true "info" ts m))
  rw [List.length_map, List.length_map] at h2
  rw [h2, hsub, List.replicate_succ]
  simp [consoleLine, List.set]

theorem logOp_midState_step (B : Nat) (src ts m : String)
    (pairs : List (String × String)) (h : pairs.length + 1 < B) :
    logOp (midState B src pairs) "info" m ts =
      .ok (midState B src (pairs ++ [(ts, m)]), true) := by
  have hmod : (pairs.length + 1) % B = pairs.length + 1 := Nat.mod_eq_of_lt h
  have hset := midState_set_step B src ts m pairs (Nat.le_of_lt h)
  simp only [logOp, midState, fileWrite]
  simp only [hmod, hset]
  simp [midState, fileLine, consoleLine, List.map_append]

theorem flushOp_midState (B : Nat) (src : String) (pairs : List (String × String))
    (h : pairs.length ≤ B) :
    flushOp (midState B src pairs) =
      if pairs = [] then midState B src [] else flushedState B src pairs := by
  have hne := consoleLines_ne_empty src pairs
  have hcollect : truthyCollect ((pairs.map (consoleLine src)).map some ++
      List.replicate (B - pairs.length) none) = pairs.map (consoleLine src) := by
    rw [truthyCollect_append, truthyCollect_map_some _ hne, truthyCollect_replicate_none,
      List.append_nil]
  have hclear : truthyClear ((pairs.map (consoleLine src)).map some ++
      List.replicate (B - pairs.length) none) = List.replicate B none := by
    rw [truthyClear_append, truthyClear_map_some _ hne, truthyClear_replicate_none,
      List.length_map, ← List.replicate_add]
    congr 1
    omega
  by_cases hp : pairs = []
  · subst hp
    simp only [flushOp, midState]
    rw [hcollect, hclear]
    simp
  · have hlines : ¬ pairs.map (consoleLine src) = [] := by
      simp [hp]
    simp only [flushOp, midState, flushedState]
    rw [hcollect, hclear]
    simp [hlines, hp]

theorem logOp_midState_wrap (B : Nat) (src ts m : String)
    (pairs : List (String × String)) (h : pairs.length + 1 = B) :
    logOp (midState B src pairs) "info" m ts =
      .ok (flushedState B src (pairs ++ [(ts, m)]), true) := by
  have hset := midState_set_step B src ts m pairs (Nat.le_of_eq h)
  have hmod : (pairs.length + 1) % B = 0 := by rw [h]; exact Nat.mod_self B
  have hsub0 : B - (pairs.length + 1) = 0 := by omega
  have hne := consoleLines_ne_empty src (pairs ++ [(ts, m)])
  have hcollect := truthyCollect_map_some _ hne
  have hclear := truthyClear_map_some _ hne
  have hlinesLen : ((pairs ++ [(ts, m)]).map (consoleLine src)).length = B := by
    simp [List.length_append]
    omega
  have hlines : ¬ (pairs ++ [(ts, m)]).map (consoleLine src) = [] := by simp
  simp only [logOp, midState, fileWrite]
  simp only [hset, hmod, hsub0, List.replicate_zero, List.append_nil]
  simp only [flushOp]
  rw [hcollect, hclear, hlinesLen]
  simp [flushedState, hlines, fileLine, consoleLine, List.map_append]

theorem runInfos_midState (B : Nat) (src : String) :
    ∀ (rest pairs : List (String × String)), pairs.length + rest.length < B →
    runInfos (midState B src pairs) rest = .ok (midState B src (pairs ++ rest)) := by
  intro rest
  induction rest with
  | nil => intro pairs h; simp [runInfos]
  | cons q rest ih =>
    intro pairs h
    obtain ⟨ts, m⟩ := q
    have hstep : pairs.length + 1 < B := by simp at h; omega
    have htail := ih (pairs ++ [(ts, m)]) (by simp at h ⊢; omega)
    simp only [runInfos, logOp_midState_step B src ts m pairs hstep, htail]
    simp [List.append_assoc]

theorem runInfos_split (st : LoggerState) (xs ys : List (String × String)) :
    runInfos st (xs ++ ys) =
      match runInfos st xs with
      | .ok st2 => runInfos st2 ys
      | .error e => .error e := by
  induction xs generalizing st with
  | nil => simp [runInfos]
  | cons q xs ih =>
    obtain ⟨ts, m⟩ := q
    simp only [List.cons_append, runInfos]
    cases logOp st "info" m ts with
    | ok p => obtain ⟨st2, b⟩ := p; simp [ih]
    | error e => simp

/-- C5: for a buffered logger (immediateMode false) and any N info calls with
N below bufferSize and no intervening flush, running the calls leaves exactly
their console lines in the buffer front-to-back with the file sink already
holding every file variant in call order, and a subsequent flush collects
exactly those N console lines in call order, clears every slot, issues them as
one newline-joined write on the console stream, resets the index to 0, and
leaves the file sink contents untouched. -/
theorem C5_buffered_flush_order (B : Nat) (src : String)
    (entries : List (String × String)) (h : entries.length < B) :
    runInfos (freshBuffered B src) entries = .ok (midState B src entries) ∧
    (midState B src entries).fileInfo = entries.map (fileLine src) ∧
    truthyCollect (midState B src entries).buffer = entries.map (consoleLine src) ∧
    flushOp (midState B src entries) =
      { midState B src entries with
          buffer := List.replicate B none
          index := 0
          streamW := if entries = [] then []
            else [String.intercalate "\n" (entries.map (consoleLine src)) ++ "\n"] } ∧
    (flushOp (midState B src entries)).fileInfo = entries.map (fileLine src) := by
  have hrun : runInfos (freshBuffered B src) entries = .ok (midState B src entries) := by
    rw [freshBuffered_eq_midState]
    have := runInfos_midState B src entries [] (by simpa using h)
    simpa using this
  have hcollect : truthyCollect (midState B src entries).buffer =
      entries.map (consoleLine src) := by
    show truthyCollect ((entries.map (consoleLine src)).map some ++
      List.replicate (B - entries.length) none) = entries.map (consoleLine src)
    rw [truthyCollect_append, truthyCollect_map_some _ (consoleLines_ne_empty src entries),
      truthyCollect_replicate_none, List.append_nil]
  have hflush := flushOp_midState B src entries (Nat.le_of_lt h)
  have hflushEq : flushOp (midState B src entries) =
      { midState B src entries with
          buffer := List.replicate B none
          index := 0
          streamW := if entries = [] then []
            else [String.intercalate "\n" (entries.map (consoleLine src)) ++ "\n"] } := by
    rw [hflush]
    by_cases hp : entries = []
    · subst hp
      simp [midState]
    · rw [if_neg hp, if_neg hp]
      simp [flushedState, midState]
  refine ⟨hrun, rfl, hcollect, hflushEq, ?_⟩
  rw [hflushEq]
  rfl

/-- C5 witness: three-slot buffer, two info calls, then a flush. -/
theorem C5_buffered_flush_order_witness :
    runInfos (freshBuffered 3 "Logger") [("T1", "a"), ("T2", "b")] =
      .ok (midState 3 "Logger" [("T1", "a"), ("T2", "b")]) ∧
    (flushOp (midState 3 "Logger" [("T1", "a"), ("T2", "b")])).streamW =
      ["[T1] \x1b[32m[INFO] Logger\x1b[0m: a\n[T2] \x1b[32m[INFO] Logger\x1b[0m: b\n"] ∧
    (midState 3 "Logger" [("T1", "a"), ("T2", "b")]).fileInfo =
      ["[T1] [INFO] Logger: a\n", "[T2] [INFO] Logger: b\n"] := by
  have h := C5_buffered_flush_order 3 "Logger" [("T1", "a"), ("T2", "b")] (by decide)
  refine ⟨h.1, ?_, ?_⟩
  · rw [h.2.2.2.1]
    decide
  · rw [h.2.1]
    decide

/-- C4: with immediateMode false and bufferSize B at least 1, logging exactly
B info entries from a fresh instance leaves the stream untouched through the
first B-1 calls, and the B-th call wraps the index to 0 and triggers a flush
that writes all B console lines, newline-joined and newline-terminated, as a
single write on the console stream, leaving index 0 and an all-empty buffer. -/
theorem C4_wrap_triggered_flush (B : Nat) (src : String)
    (entries : List (String × String)) (hB : 1 ≤ B) (hlen : entries.length = B) :
    runInfos (freshBuffered B src) entries = .ok (flushedState B src entries) ∧
    runInfos (freshBuffered B src) entries.dropLast =
      .ok (midState B src entries.dropLast) ∧
    (midState B src entries.dropLast).streamW = [] ∧
    (flushedState B src entries).index = 0 ∧
    (flushedState B src entries).buffer = List.replicate B none ∧
    (flushedState B src entries).streamW =
      [String.intercalate "\n" (entries.map (consoleLine src)) ++ "\n"] := by
  have hne : ¬ entries = [] := by
    intro e
    rw [e] at hlen
    simp at hlen
    omega
  rcases hp : entries.getLast hne with ⟨ts, m⟩
  have hfl : entries.dropLast ++ [(ts, m)] = entries := by
    rw [← hp]
    exact List.dropLast_append_getLast hne
  have hfront : entries.dropLast.length + 1 = B := by
    have := congrArg List.length hfl
    simp only [List.length_append, List.length_cons, List.length_nil] at this
    omega
  have h2 : runInfos (freshBuffered B src) entries.dropLast =
      .ok (midState B src entries.dropLast) := by
    rw [freshBuffered_eq_midState]
    have := runInfos_midState B src entries.dropLast [] (by simp; omega)
    simpa using this
  have hwrap := logOp_midState_wrap B src ts m entries.dropLast hfront
  have h1 : runInfos (freshBuffered B src) entries = .ok (flushedState B src entries) := by
    rw [← hfl, runInfos_split, h2]
    show runInfos (midState B src entries.dropLast) [(ts, m)] =
      .ok (flushedState B src (entries.dropLast ++ [(ts, m)]))
    simp only [runInfos, hwrap]
  exact ⟨h1, h2, rfl, rfl, rfl, rfl⟩

/-- C4 witness: the concrete spec scenario bufferSize 2, info a then info b. -/
theorem C4_wrap_triggered_flush_witness :
    runInfos (freshBuffered 2 "Logger") [("T1", "a"), ("T2", "b")] =
      .ok (flushedState 2 "Logger" [("T1", "a"), ("T2", "b")]) ∧
    (flushedState 2 "Logger" [("T1", "a"), ("T2", "b")]).streamW =
      ["[T1] \x1b[32m[INFO] Logger\x1b[0m: a\n[T2] \x1b[32m[INFO] Logger\x1b[0m: b\n"] ∧
    (flushedState 2 "Logger" [("T1", "a"), ("T2", "b")]).index = 0 ∧
    (flushedState 2 "Logger" [("T1", "a"), ("T2", "b")]).buffer = List.replicate 2 none := by
  have h := C4_wrap_triggered_flush 2 "Logger" [("T1", "a"), ("T2", "b")]
    (by decide) (by decide)
  exact ⟨h.1, by decide, h.2.2.2.1, h.2.2.2.2.1⟩

/-- C1 evidence: a buffered logger with one pending entry is closed; because
close sets isClosed before calling flush and flush returns immediately on a
closed instance, the final flush is a no-op: the console stream and standard
output receive nothing, and the pending entry is still sitting in the buffer
of the closed instance. This contradicts the close/IBuffered documentation
that close ensures all pending logs are flushed. -/
theorem C1_close_drops_buffered_entry :
    runInfos (freshBuffered 2 "Logger") [("T", "a")] =
      .ok (midState 2 "Logger" [("T", "a")]) ∧
    (closeOp (midState 2 "Logger" [("T", "a")])).isClosed = true ∧
    (closeOp (midState 2 "Logger" [("T", "a")])).streamW = [] ∧
    (closeOp (midState 2 "Logger" [("T", "a")])).stdoutW = [] ∧
    (closeOp (midState 2 "Logger" [("T", "a")])).buffer =
      [some "[T] \x1b[32m[INFO] Logger\x1b[0m: a", none] ∧
    flushOp { midState 2 "Logger" [("T", "a")] with isClosed := true } =
      { midState 2 "Logger" [("T", "a")] with isClosed := true } := by
  refine ⟨rfl, ?_, ?_, ?_, ?_, ?_⟩ <;> decide

/-- The configuration refuting C2: immediate mode with a configured
writeStream that is not the process standard output. -/
def sinkLogger : LoggerState := mkLogger (some 4) (some true) false "Logger"

/-- C2 counterexample: on the immediate path the console variant is written to
process standard output; the configured console sink, although distinct from
standard output, receives nothing. -/
theorem C2_cex_immediate_bypasses_sink :
    sinkLogger.streamIsStdout = false ∧
    (resultState (logOp sinkLogger "info" "hello" "T")).streamW = [] ∧
    (resultState (logOp sinkLogger "info" "hello" "T")).stdoutW =
      ["[T] \x1b[32m[INFO] Logger\x1b[0m: hello\n"] := by
  refine ⟨rfl, ?_, ?_⟩ <;> decide

/-- C2 (amended): every log call taken on the immediate path writes the
console variant to process standard output, regardless of the configured
writeStream, whose trace is unchanged; only batched flushes write to the
configured stream. -/
theorem C2_amended_immediate_writes_stdout (st : LoggerState) (level msg ts : String)
    (hc : st.isClosed = false)
    (him : st.inmediate = true ∨ level = "warn" ∨ level = "error") :
    (resultState (logOp st level msg ts)).stdoutW =
      st.stdoutW ++ [formatMessage st.source true level ts msg ++ "\n"] ∧
    (resultState (logOp st level msg ts)).streamW = st.streamW := by
  simp only [logOp]
  rw [if_neg (by simp [hc]), if_pos him]
  unfold fileWrite
  split_ifs <;> simp [resultState]

/-- C2 amended witness: immediate info call on a fresh default-sink logger. -/
theorem C2_amended_witness :
    (resultState (logOp (mkLogger (some 4) (some true) true "L") "info" "m" "T")).stdoutW =
      (mkLogger (some 4) (some true) true "L").stdoutW ++
        [formatMessage "L" true "info" "T" "m" ++ "\n"] ∧
    (resultState (logOp (mkLogger (some 4) (some true) true "L") "info" "m" "T")).streamW =
      (mkLogger (some 4) (some true) true "L").streamW :=
  C2_amended_immediate_writes_stdout (mkLogger (some 4) (some true) true "L")
    "info" "m" "T" rfl (Or.inl rfl)

/-- C3: once the instance is closed, log and every convenience wrapper (debug
taken in development mode) throw the closed-instance error carrying the state
unchanged: no console write, no file write, no buffer or index mutation; a
non-development debug call returns false without logging. -/
theorem C3_post_close_rejection (st : LoggerState) (level msg ts : String)
    (h : st.isClosed = true) :
    logOp st level msg ts = .error (.closedInstance, st) ∧
    infoOp st msg ts = .error (.closedInstance, st) ∧
    warnOp st msg ts = .error (.closedInstance, st) ∧
    errorOp st msg ts = .error (.closedInstance, st) ∧
    debugOp true st msg ts = .error (.closedInstance, st) ∧
    debugOp false st msg ts = .ok (st, false) := by
  simp [logOp, infoOp, warnOp, errorOp, debugOp, h]

/-- C3 witness: logging on a freshly closed logger throws with the state
untouched. -/
theorem C3_post_close_rejection_witness :
    logOp (closeOp (mkLogger (some 4) (some true) true "L")) "info" "m" "T" =
      .error (.closedInstance, closeOp (mkLogger (some 4) (some true) true "L")) :=
  (C3_post_close_rejection (closeOp (mkLogger (some 4) (some true) true "L"))
    "info" "m" "T" (by decide)).1

/-- The operations of the public mutating API, for quantifying over arbitrary
call sequences. -/
inductive LoggerOp where
  | logO (level msg ts : String)
  | flushO
  | closeO

/-- One public operation, keeping the carried state when log throws. -/
def applyOp (st : LoggerState) : LoggerOp → LoggerState
  | .logO l m t => resultState (logOp st l m t)
  | .flushO => flushOp st
  | .closeO => closeOp st

/-- A sequence of public operations. -/
def runOps (st : LoggerState) (ops : List LoggerOp) : LoggerState :=
  ops.foldl applyOp st

theorem flushOp_closed (st : LoggerState) (h : st.isClosed = true) : flushOp st = st := by
  unfold flushOp
  rw [if_pos (Or.inr h)]

theorem fileWrite_fields (st : LoggerState) (level line : String) (st2 : LoggerState)
    (h : fileWrite st level line = some st2) :
    st2.index = st.index ∧ st2.bufferSize = st.bufferSize := by
  unfold fileWrite at h
  split_ifs at h <;> (injection h with h2; subst h2; simp)

theorem resultState_fileWrite_lt (st1 : LoggerState) (level line : String)
    (h1 : st1.index < st1.bufferSize) :
    (resultState (match fileWrite st1 level line with
      | some st2 => Except.ok (st2, true)
      | none => Except.error (LogError.badLevel, st1))).index <
    (resultState (match fileWrite st1 level line with
      | some st2 => Except.ok (st2, true)
      | none => Except.error (LogError.badLevel, st1))).bufferSize := by
  cases hfw : fileWrite st1 level line with
  | some st2 =>
    obtain ⟨hi, hb⟩ := fileWrite_fields st1 level line st2 hfw
    simp [resultState, hi, hb, h1]
  | none => simp [resultState, h1]

theorem flushOp_inv (s : LoggerState) (h2 : s.index < s.bufferSize) :
    (flushOp s).index < (flushOp s).bufferSize := by
  unfold flushOp
  split_ifs with hg
  · exact h2
  · simp
    split <;> simp <;> omega

theorem applyOp_inv (st : LoggerState) (op : LoggerOp) (h : st.index < st.bufferSize) :
    (applyOp st op).index < (applyOp st op).bufferSize := by
  have hB : 0 < st.bufferSize := Nat.lt_of_le_of_lt (Nat.zero_le _) h
  cases op with
  | flushO =>
    simp only [applyOp]
    exact flushOp_inv st h
  | closeO =>
    simp only [applyOp]
    unfold closeOp
    split_ifs with h1
    · exact h
    · have hfl : flushOp { st with isClosed := true } = { st with isClosed := true } :=
        flushOp_closed _ rfl
      simp [hfl]
      split_ifs <;> simp <;> omega
  | logO l m t =>
    simp only [applyOp]
    by_cases hcl : st.isClosed = true
    · simp [logOp, hcl, resultState, h]
    · by_cases him : st.inmediate = true ∨ l = "warn" ∨ l = "error"
      · simp only [logOp, if_neg hcl, if_pos him]
        exact resultState_fileWrite_lt _ l _ (by simpa using h)
      · by_cases hz : (st.index + 1) % st.bufferSize = 0
        · simp only [logOp, if_neg hcl, if_neg him, hz, if_pos rfl]
          apply resultState_fileWrite_lt
          apply flushOp_inv
          simpa [hz] using hB
        · simp only [logOp, if_neg hcl, if_neg him]
          rw [if_neg (by simpa using hz)]
          apply resultState_fileWrite_lt
          simpa using Nat.mod_lt _ hB

theorem runOps_inv (ops : List LoggerOp) : ∀ st : LoggerState,
    st.index < st.bufferSize → (runOps st ops).index < (runOps st ops).bufferSize := by
  induction ops with
  | nil =>
    intro st h
    simpa [runOps] using h
  | cons op ops ih =>
    intro st h
    simp only [runOps, List.foldl_cons] at *
    exact ih _ (applyOp_inv st op h)

/-- C8 counterexample: bufferSize 0 is a recognized option value (a number
passed through the nullish-coalescing default), and with it the invariant
0 at most writeIndex below bufferSize is already false in the initial state,
since the range is empty while writeIndex is 0. -/
theorem C8_cex_bufferSize_zero :
    (mkLogger (some 0) (some false) true "L").index = 0 ∧
    (mkLogger (some 0) (some false) true "L").bufferSize = 0 ∧
    decide ((mkLogger (some 0) (some false) true "L").index <
      (mkLogger (some 0) (some false) true "L").bufferSize) = false :=
  ⟨rfl, rfl, rfl⟩

/-- C8 (amended): for every logger constructed with bufferSize at least 1 and
every sequence of log, flush and close operations, the write index stays
strictly below bufferSize (and at least 0, trivially in this model). -/
theorem C8_amended_index_bound (bs : Option Nat) (im : Option Bool) (sstd : Bool)
    (src : String) (ops : List LoggerOp) (hB : 1 ≤ bs.getD 1024) :
    (runOps (mkLogger bs im sstd src) ops).index <
      (runOps (mkLogger bs im sstd src) ops).bufferSize := by
  apply runOps_inv
  simpa [mkLogger] using hB

/-- C8 amended witness: a two-slot logger through a log, flush, log, close
sequence. -/
theorem C8_amended_index_bound_witness :
    (runOps (mkLogger (some 2) (some false) true "L")
        [LoggerOp.logO "info" "a" "T1", LoggerOp.flushO,
         LoggerOp.logO "info" "b" "T2", LoggerOp.closeO]).index <
      (runOps (mkLogger (some 2) (some false) true "L")
        [LoggerOp.logO "info" "a" "T1", LoggerOp.flushO,
         LoggerOp.logO "info" "b" "T2", LoggerOp.closeO]).bufferSize :=
  C8_amended_index_bound (some 2) (some false) true "L"
    [LoggerOp.logO "info" "a" "T1", LoggerOp.flushO,
     LoggerOp.logO "info" "b" "T2", LoggerOp.closeO] (by decide)

/-- C10: on a live instance, a severity outside the four known ones makes log
throw (the file-stream lookup yields no stream), and on the immediate path the
console write to standard output has already happened when the throw occurs,
so the failure is not atomic with respect to the console sink. -/
theorem C10_unknown_level_throws (st : LoggerState) (level msg ts : String)
    (hc : st.isClosed = false)
    (h1 : level ≠ "info") (h2 : level ≠ "debug")
    (h3 : level ≠ "error") (h4 : level ≠ "warn") :
    (st.inmediate = true →
      logOp st level msg ts = .error (.badLevel,
        { st with stdoutW :=
            st.stdoutW ++ [formatMessage st.source true level ts msg ++ "\n"] })) ∧
    (st.inmediate = false →
      ∃ st1, logOp st level msg ts = .error (.badLevel, st1)) := by
  constructor
  · intro him
    simp only [logOp]
    rw [if_neg (by simp [hc]), if_pos (Or.inl him)]
    unfold fileWrite
    rw [if_neg h1, if_neg h2, if_neg h3, if_neg h4]
  · intro him
    refine ⟨if (st.index + 1) % st.bufferSize = 0 then flushOp { st with buffer := st.buffer.set st.index (some (formatMessage st.source true level ts msg)), index := (st.index + 1) % st.bufferSize } else { st with buffer := st.buffer.set st.index (some (formatMessage st.source true level ts msg)), index := (st.index + 1) % st.bufferSize }, ?_⟩
    simp only [logOp]
    rw [if_neg (by simp [hc]), if_neg (by simp [him, h3, h4])]
    unfold fileWrite
    rw [if_neg h1, if_neg h2, if_neg h3, if_neg h4]

/-- C10 witness: severity "fatal" on a fresh immediate-mode logger throws with
the console write already on the standard-output trace. -/
theorem C10_unknown_level_throws_witness :
    logOp (mkLogger (some 4) (some true) true "L") "fatal" "m" "T" =
      .error (.badLevel,
        { mkLogger (some 4) (some true) true "L" with
            stdoutW := (mkLogger (some 4) (some true) true "L").stdoutW ++
              [formatMessage "L" true "fatal" "T" "m" ++ "\n"] }) :=
  (C10_unknown_level_throws (mkLogger (some 4) (some true) true "L") "fatal" "m" "T"
    rfl (by decide) (by decide) (by decide) (by decide)).1 rfl

/-- Occurrence count of a character-list pattern at every position (used to
count ANSI reset markers in a formatted line). -/
def occCount (sub : List Char) : List Char → Nat
  | [] => 0
  | c :: rest => (if sub.isPrefixOf (c :: rest) then 1 else 0) + occCount sub rest

/-- Occurrence count of a substring in a string. -/
def occCountStr (sub s : String) : Nat := occCount sub.data s.data

/-- Modelled from the spec sentence "console line format:
timestamp color SEVERITY reset sourceLabel: message, reset restores default
terminal color after the severity tag and again after the source label" — the
two-reset shape the spec asserts, for comparison against formatMessage. -/
def specConsoleLineTwoResets (ts level src msg : String) : String :=
  "[" ++ ts ++ "] " ++ colorOf level ++ "[" ++ upperStr level ++ "]" ++ resetCode
    ++ " " ++ src ++ resetCode ++ ": " ++ msg

/-- C9 counterexample: the console line the code produces differs from the
spec's two-reset shape; the code emits exactly one reset marker, after the
source label, while the spec shape has two. -/
theorem C9_cex_single_reset :
    (formatMessage "Logger" true "info" "T" "x" ==
      specConsoleLineTwoResets "T" "info" "Logger" "x") = false ∧
    occCountStr resetCode (formatMessage "Logger" true "info" "T" "x") = 1 ∧
    occCountStr resetCode (specConsoleLineTwoResets "T" "info" "Logger" "x") = 2 := by
  refine ⟨?_, ?_, ?_⟩ <;> decide

/-- C9 (amended): for each of the four severities the console variant is
"[timestamp] color[SEVERITY] sourceLabel reset: message" — the per-severity
palette color opens before the severity tag and a single reset closes it after
the source label (one reset marker per line when the payload carries none). -/
theorem C9_amended_console_shape (ts src msg : String) :
    formatMessage src true "info" ts msg =
      "[" ++ ts ++ "] " ++ "\x1b[32m" ++ "[" ++ "INFO" ++ "] " ++ src
        ++ resetCode ++ ": " ++ msg ∧
    formatMessage src true "warn" ts msg =
      "[" ++ ts ++ "] " ++ "\x1b[33m" ++ "[" ++ "WARN" ++ "] " ++ src
        ++ resetCode ++ ": " ++ msg ∧
    formatMessage src true "error" ts msg =
      "[" ++ ts ++ "] " ++ "\x1b[31m" ++ "[" ++ "ERROR" ++ "] " ++ src
        ++ resetCode ++ ": " ++ msg ∧
    formatMessage src true "debug" ts msg =
      "[" ++ ts ++ "] " ++ "\x1b[34m" ++ "[" ++ "DEBUG" ++ "] " ++ src
        ++ resetCode ++ ": " ++ msg ∧
    occCountStr resetCode (formatMessage "Logger" true "info" "T" "x") = 1 :=
  ⟨rfl, rfl, rfl, rfl, by decide⟩

/-- A parsed stack frame, as in IStackFrame: the raw symbol, the file path,
and the line number captured by the detector regular expression. -/
structure IStackFrame where
  identifier : String
  path : String
  line : Nat
deriving DecidableEq

/-- JavaScript String.prototype.startsWith. -/
def strStarts (p s : String) : Bool := p.data.isPrefixOf s.data

/-- Substring test at every position, JavaScript String.prototype.includes. -/
def hasSubList (sub : List Char) : List Char → Bool
  | [] => sub.isEmpty
  | c :: rest => sub.isPrefixOf (c :: rest) || hasSubList sub rest

/-- JavaScript s.includes(sub). -/
def containsSub (sub s : String) : Bool := hasSubList sub.data s.data

/-- JavaScript String.prototype.split with a single-character separator. -/
def splitOnChar (ch : Char) : List Char → List (List Char)
  | [] => [[]]
  | x :: xs =>
    if x = ch then [] :: splitOnChar ch xs
    else
      match splitOnChar ch xs with
      | [] => [[x]]
      | y :: ys => (x :: y) :: ys

/-- String-level wrapper for splitOnChar. -/
def splitStr (ch : Char) (s : String) : List String :=
  (splitOnChar ch s.data).map String.mk

/-- The frames surviving getCallerClass filtering: the parsed matches minus
the resolver's own top frame, reversed, kept when the path lies under the
resolved project directory and outside node_modules, and the identifier is
not anonymous and not Object.- or Module.-prefixed. The filterDir argument
stands for the already-resolved process working directory. -/
def survivorFrames (stack : List IStackFrame) (filterDir : String) : List IStackFrame :=
  (((stack.drop 1).reverse.filter
      (fun f => strStarts filterDir f.path && !(containsSub "node_modules" f.path))).filter
    (fun f => !(containsSub "<anonymous>" f.identifier) &&
      !(strStarts "Object." f.identifier) && !(strStarts "Module." f.identifier)))

/-- One insertion step of the stable sort by ascending line number. -/
def insertFrame (f : IStackFrame) : List IStackFrame → List IStackFrame
  | [] => [f]
  | g :: gs => if f.line ≤ g.line then f :: g :: gs else g :: insertFrame f gs

/-- The sort(a.line - b.line) call: Array.prototype.sort is stable, modelled
by insertion sort keeping earlier elements first among equal line numbers. -/
def sortFrames : List IStackFrame → List IStackFrame
  | [] => []
  | f :: fs => insertFrame f (sortFrames fs)

/-- The identifier extraction at the end of getCallerClass: the segment before
the first dot, split on spaces, with the first token dropped when more than
one token remains. -/
def extractBareName (id : String) : String :=
  let separated := splitStr ' ' ((splitStr '.' id).headD "")
  let separated2 := if separated.length > 1 then separated.drop 1 else separated
  separated2.headD ""

/-- SourceClass.getCallerClass on the parsed stack: Unknown when no frame
survives filtering, otherwise the extracted name of the first frame of the
line-sorted survivors. -/
def getCallerClass (stack : List IStackFrame) (filterDir : String) : String :=
  match sortFrames (survivorFrames stack filterDir) with
  | [] => "Unknown"
  | f :: _ => extractBareName f.identifier

theorem insertFrame_length (f : IStackFrame) (l : List IStackFrame) :
    (insertFrame f l).length = l.length + 1 := by
  induction l with
  | nil => rfl
  | cons g gs ih =>
    simp only [insertFrame]
    split_ifs <;> simp [ih]

theorem sortFrames_length (l : List IStackFrame) :
    (sortFrames l).length = l.length := by
  induction l with
  | nil => rfl
  | cons f fs ih => simp [sortFrames, insertFrame_length, ih]

theorem mem_insertFrame (f a : IStackFrame) (l : List IStackFrame) :
    a ∈ insertFrame f l ↔ a = f ∨ a ∈ l := by
  induction l with
  | nil => simp [insertFrame]
  | cons g gs ih =>
    simp only [insertFrame]
    split_ifs <;> simp [ih] <;> tauto

theorem sortFrames_head_min (l : List IStackFrame) (f : IStackFrame)
    (rest : List IStackFrame) (hs : sortFrames l = f :: rest) :
    f ∈ l ∧ ∀ g ∈ l, f.line ≤ g.line := by
  induction l generalizing f rest with
  | nil => simp [sortFrames] at hs
  | cons x xs ih =>
    simp only [sortFrames] at hs
    cases hx : sortFrames xs with
    | nil =>
      have hxs : xs = [] := by
        have := sortFrames_length xs
        rw [hx] at this
        exact List.length_eq_zero.mp this.symm
      rw [hx] at hs
      simp only [insertFrame] at hs
      cases hs
      subst hxs
      simp
    | cons y ys =>
      obtain ⟨hy_mem, hy_min⟩ := ih y ys hx
      rw [hx] at hs
      simp only [insertFrame] at hs
      split_ifs at hs with hle
      · injection hs with h1 h2
        subst h1
        constructor
        · simp
        · intro g hg
          rcases List.mem_cons.mp hg with rfl | hg2
          · exact Nat.le_refl _
          · exact Nat.le_trans hle (hy_min g hg2)
      · injection hs with h1 h2
        subst h1
        constructor
        · exact List.mem_cons_of_mem x hy_mem
        · intro g hg
          rcases List.mem_cons.mp hg with rfl | hg2
          · exact Nat.le_of_lt (Nat.lt_of_not_le hle)
          · exact hy_min g hg2

/-- C7: after the parse/filter pipeline, getCallerClass returns Unknown when
no frame survives; otherwise it returns the extracted bare name (segment
before the first dot, space-split, first token dropped when several remain)
of a surviving frame whose line number is minimal among all survivors. -/
theorem C7_caller_resolution (stack : List IStackFrame) (filterDir : String) :
    (survivorFrames stack filterDir = [] →
      getCallerClass stack filterDir = "Unknown") ∧
    (survivorFrames stack filterDir ≠ [] →
      ∃ f ∈ survivorFrames stack filterDir,
        (∀ g ∈ survivorFrames stack filterDir, f.line ≤ g.line) ∧
        getCallerClass stack filterDir = extractBareName f.identifier) := by
  constructor
  · intro h
    unfold getCallerClass
    rw [h]
    rfl
  · intro h
    cases hs : sortFrames (survivorFrames stack filterDir) with
    | nil =>
      exfalso
      apply h
      have hlen := sortFrames_length (survivorFrames stack filterDir)
      rw [hs] at hlen
      exact List.length_eq_zero.mp hlen.symm
    | cons f rest =>
      obtain ⟨hmem, hmin⟩ := sortFrames_head_min _ f rest hs
      refine ⟨f, hmem, hmin, ?_⟩
      unfold getCallerClass
      rw [hs]

/-- A concrete captured stack: the resolver frame on top, then a constructor
frame, a dependency frame, and two application frames. -/
def sampleStack : List IStackFrame :=
  [{ identifier := "SourceClass.getCallerClass",
     path := "/proj/src/modules/helpers/SourceClass.ts", line := 10 },
   { identifier := "new Logger", path := "/proj/src/modules/classes/Logger.ts", line := 56 },
   { identifier := "Object.onceWrapper", path := "/proj/node_modules/lib/index.js", line := 3 },
   { identifier := "MyService.start", path := "/proj/src/service.ts", line := 12 },
   { identifier := "new MyService", path := "/proj/src/service.ts", line := 8 }]

/-- C7 witness: the empty stack resolves to Unknown; on the sample stack the
minimal-line survivor is the frame "new MyService" at line 8, and the
extracted name is MyService. -/
theorem C7_caller_resolution_witness :
    getCallerClass [] "/proj" = "Unknown" ∧
    (∃ f ∈ survivorFrames sampleStack "/proj",
      (∀ g ∈ survivorFrames sampleStack "/proj", f.line ≤ g.line) ∧
      getCallerClass sampleStack "/proj" = extractBareName f.identifier) ∧
    getCallerClass sampleStack "/proj" = "MyService" := by
  refine ⟨(C7_caller_resolution [] "/proj").1 rfl,
    (C7_caller_resolution sampleStack "/proj").2 (by decide), by decide⟩

/-- A logged JavaScript value, heap-shaped so that cyclic structures are
expressible: prim carries its default string conversion; obj is a plain
object whose generic serialization (JSON.stringify) either yields the given
text or throws (none, the cyclic case caught by the try block); jmap and jset
hold heap addresses of their keys, values and elements. -/
inductive JSVal where
  | prim (s : String)
  | obj (json : Option String)
  | jmap (entries : List (Nat × Nat))
  | jset (elems : List Nat)
deriving DecidableEq

/-- Left-to-right effectful map over Except, the evaluation order of the
Array.prototype.map calls inside formatMap and formatSet. -/
def exceptStrs {α : Type} (g : α → Except Unit String) : List α → Except Unit (List String)
  | [] => .ok []
  | x :: xs => do
    let s ← g x
    let rest ← exceptStrs g xs
    pure (s :: rest)

/-- Logger.formatValue over a heap of values. The Nat fuel is the remaining
call-stack depth: each recursive formatValue call (from formatMap and
formatSet) descends one level, and exhausting it models the stack-overflow
RangeError the engine raises, an exception no try block in the cycle guards
against. The obj branch is the try/catch around JSON.stringify: a cyclic
plain object yields the "[Circular]" token instead of raising. -/
def formatValue (h : List JSVal) : Nat → Nat → Except Unit String
  | 0, _ => .error ()
  | fuel + 1, a =>
    match h[a]? with
    | none => .ok "undefined"
    | some (.prim s) => .ok s
    | some (.obj json) => .ok (json.getD "[Circular]")
    | some (.jmap es) => do
      let strs ← exceptStrs (fun kv => do
        let ks ← formatValue h fuel kv.1
        let vs ← formatValue h fuel kv.2
        pure ("\x1b[36m" ++ ks ++ resetCode ++ " => " ++ "\x1b[35m" ++ vs ++ resetCode)) es
      pure ("Map(" ++ toString es.length ++ ") \x7b " ++ String.intercalate ", " strs ++ " \x7d")
    | some (.jset vs) => do
      let strs ← exceptStrs (fun v => do
        let s ← formatValue h fuel v
        pure ("\x1b[33m" ++ s ++ resetCode)) vs
      pure ("Set(" ++ toString vs.length ++ ") \x7b " ++ String.intercalate ", " strs ++ " \x7d")

/-- A Map holding itself as the value of its single entry. -/
def cyclicMapHeap : List JSVal := [.jmap [(1, 0)], .prim "k"]

/-- A Set holding itself as its single element. -/
def cyclicSetHeap : List JSVal := [.jset [0]]

/-- A plain object whose structural serialization throws (a self-reference). -/
def cyclicObjHeap : List JSVal := [.obj none]

theorem cyclicObj_formats (fuel : Nat) :
    formatValue cyclicObjHeap (fuel + 1) 0 = .ok "[Circular]" := rfl

theorem acyclicObj_formats (fuel : Nat) (j : String) :
    formatValue [JSVal.obj (some j)] (fuel + 1) 0 = .ok j := rfl

theorem exbind_ok {q b : Type} (a : q) (f : q → Except Unit b) :
    (Except.ok a >>= f) = f a := rfl

theorem exbind_err {q b : Type} (e : Unit) (f : q → Except Unit b) :
    ((Except.error e : Except Unit q) >>= f) = Except.error e := rfl

theorem cyclicMap_errs (fuel : Nat) :
    formatValue cyclicMapHeap fuel 0 = .error () := by
  induction fuel with
  | zero => rfl
  | succ k ih =>
    simp only [cyclicMapHeap] at ih ⊢
    simp only [formatValue]
    cases hk : formatValue [JSVal.jmap [(1, 0)], JSVal.prim "k"] k 1 with
    | ok s => simp [exceptStrs, hk, ih, exbind_ok, exbind_err]
    | error e =>
      cases e
      simp [exceptStrs, hk, ih, exbind_ok, exbind_err]

theorem cyclicSet_errs (fuel : Nat) :
    formatValue cyclicSetHeap fuel 0 = .error () := by
  induction fuel with
  | zero => rfl
  | succ k ih =>
    simp only [cyclicSetHeap] at ih ⊢
    simp only [formatValue]
    simp [exceptStrs, ih, exbind_ok, exbind_err]

/-- C6 counterexample: at the same generous recursion budget where a cyclic
plain object safely formats to the "[Circular]" token, a self-referential Map
makes formatValue raise (stack exhaustion), so formatting a cyclic Map
collection does not return a string. -/
theorem C6_cex_cyclic_map_raises :
    formatValue cyclicMapHeap 100 0 = .error () ∧
    formatValue cyclicObjHeap 100 0 = .ok "[Circular]" :=
  ⟨cyclicMap_errs 100, cyclicObj_formats 99⟩

/-- C6 (amended): formatting a plain object never raises: a serializable one
yields its serialization and a self-referential one yields the "[Circular]"
token, at every positive stack budget; but a cyclic Map or Set recurses
through formatMap/formatSet without any cycle guard and raises (exhausts the
call stack) at every stack budget. -/
theorem C6_amended_cycle_safety :
    (∀ fuel j, formatValue [JSVal.obj (some j)] (fuel + 1) 0 = .ok j) ∧
    (∀ fuel, formatValue cyclicObjHeap (fuel + 1) 0 = .ok "[Circular]") ∧
    (∀ fuel, formatValue cyclicMapHeap fuel 0 = .error ()) ∧
    (∀ fuel, formatValue cyclicSetHeap fuel 0 = .error ()) :=
  ⟨fun fuel j => acyclicObj_formats fuel j, cyclicObj_formats, cyclicMap_errs, cyclicSet_errs⟩
